import Mathlib

/-!
Shallow embedding of the behavioral units of the mxmnci/portfolio-website
repository:

* the `TokenManager` OAuth helper (the preflight script quoted in the article
  source, `getAccessToken` / `refreshAccessToken` / `retrieveNewTokens` /
  `isTokenExpired` / `isValidTokenHeader` / `parseJwt` /
  `constructRequestBody`),
* the `useSaveScrollPosition` React hook (browser localStorage reads/writes
  and the scroll listener), and
* the `Comments` component (the utteranc.es script injection).

JavaScript values that can flow through this code are modelled by `Json`
(JSON values, numbers as integers) and `JsVal := Option Json` where `none`
is `undefined`.  Thrown exceptions are modelled with `Except Unit`.  The
external world (clock, network responses) is passed in explicitly.
-/

set_option autoImplicit false

/-- JSON values.  Numeric literals are modelled as integers: every number
appearing in the claims (token expiry seconds, error flags) is integral. -/
inductive Json where
  | null : Json
  | bool : Bool → Json
  | num : Int → Json
  | str : String → Json
  | arr : List Json → Json
  | obj : List (String × Json) → Json
  deriving Repr, BEq

/-- A JavaScript value: `none` is `undefined`, `some j` a JSON value. -/
abbrev JsVal := Option Json

/-- JavaScript truthiness of a value. -/
def jsTruthy : JsVal → Bool
  | none => false
  | some Json.null => false
  | some (Json.bool b) => b
  | some (Json.num n) => n != 0
  | some (Json.str s) => s != ""
  | some (Json.arr _) => true
  | some (Json.obj _) => true

/-- Property lookup `j[k]` on a JSON value that is not `null`/`undefined`:
objects yield the field (or `undefined`), primitives and arrays yield
`undefined` for the property names used by this code. -/
def jField : Json → String → JsVal
  | Json.obj kvs, k => (kvs.find? (fun p => p.1 == k)).map (fun p => p.2)
  | _, _ => none

/-- Property access `j.k` as executed by JavaScript: accessing a property
of `null` throws a TypeError. -/
def jsAccess (j : Json) (k : String) : Except Unit JsVal :=
  match j with
  | Json.null => Except.error ()
  | _ => Except.ok (jField j k)

/-- JavaScript whitespace, trimmed by string-to-number coercion. -/
def isJsWs (c : Char) : Bool :=
  c.toNat = 32 ∨ c.toNat = 9 ∨ c.toNat = 10 ∨ c.toNat = 11 ∨ c.toNat = 12 ∨ c.toNat = 13

/-- Strip leading and trailing whitespace from a character list. -/
def trimChars (cs : List Char) : List Char :=
  ((cs.dropWhile isJsWs).reverse.dropWhile isJsWs).reverse

/-- Parse an optionally signed decimal integer from an entire character
list; `none` for anything else (NaN). -/
def strToIntOpt (cs : List Char) : Option Int :=
  let (neg, ds) :=
    match cs with
    | c :: rest =>
      if c.toNat = 45 then (true, rest)
      else if c.toNat = 43 then (false, rest)
      else (false, cs)
    | [] => (false, cs)
  if ds ≠ [] ∧ ds.all (fun c => 48 ≤ c.toNat ∧ c.toNat ≤ 57) then
    let n : Int := Int.ofNat (ds.foldl (fun acc c => acc * 10 + (c.toNat - 48)) 0)
    some (if neg then -n else n)
  else none

/-- JavaScript ToNumber coercion, with `none` standing for NaN.  String
coercion is modelled by whitespace trimming plus integer parsing (the
payloads in scope are integral). -/
def jsToNumber : JsVal → Option Int
  | none => none
  | some Json.null => some 0
  | some (Json.bool b) => some (cond b 1 0)
  | some (Json.num n) => some n
  | some (Json.str s) =>
    if trimChars s.data = [] then some 0 else strToIntOpt (trimChars s.data)
  | some (Json.arr _) => none
  | some (Json.obj _) => none

/-- `v < n` on JavaScript numbers: comparisons against NaN are false. -/
def jsLtInt (v : JsVal) (n : Int) : Bool :=
  match jsToNumber v with
  | none => false
  | some m => m < n

mutual
/-- JavaScript ToString coercion of a JSON value. -/
def jsToStringJ : Json → String
  | Json.null => "null"
  | Json.bool b => cond b "true" "false"
  | Json.num n => toString n
  | Json.str s => s
  | Json.arr xs => String.intercalate "," (jsToStringList xs)
  | Json.obj _ => "[object Object]"

/-- Array elements joined by `Array.prototype.toString`; `null` elements
stringify to the empty string. -/
def jsToStringList : List Json → List String
  | [] => []
  | Json.null :: rest => "" :: jsToStringList rest
  | j :: rest => jsToStringJ j :: jsToStringList rest
end

/-- JavaScript ToString coercion, as used by `encodeURIComponent(data[key])`
and `localStorage.setItem`. -/
def jsToString : JsVal → String
  | none => "undefined"
  | some j => jsToStringJ j

/-! ### Base64 (`atob`) -/

/-- Index of a character in the base64 alphabet. -/
def b64Index (c : Char) : Option Nat :=
  if 65 ≤ c.toNat ∧ c.toNat ≤ 90 then some (c.toNat - 65)
  else if 97 ≤ c.toNat ∧ c.toNat ≤ 122 then some (c.toNat - 97 + 26)
  else if 48 ≤ c.toNat ∧ c.toNat ≤ 57 then some (c.toNat - 48 + 52)
  else if c.toNat = 43 then some 62
  else if c.toNat = 47 then some 63
  else none

/-- ASCII whitespace, stripped by forgiving-base64 before decoding. -/
def isB64Ws (c : Char) : Bool :=
  c.toNat = 32 ∨ c.toNat = 9 ∨ c.toNat = 10 ∨ c.toNat = 12 ∨ c.toNat = 13

/-- Decode a list of 6-bit groups into bytes; a trailing group of one
character is invalid, leftover bits of a 2- or 3-character tail are
discarded (forgiving-base64). -/
def b64Groups : List Nat → Option (List Nat)
  | [] => some []
  | [_] => none
  | [a, b] => some [a * 4 + b / 16]
  | [a, b, c] => some [a * 4 + b / 16, (b % 16) * 16 + c / 4]
  | a :: b :: c :: d :: rest =>
    (b64Groups rest).map
      (fun tail => (a * 4 + b / 16) :: ((b % 16) * 16 + c / 4) :: ((c % 4) * 64 + d) :: tail)

/-- Strip at most two `=` padding characters from the end (only valid when
the total length is a multiple of four). -/
def b64StripPad (cs : List Char) : Option (List Char) :=
  if cs.length % 4 = 0 then
    match cs.reverse with
    | c1 :: c2 :: rest =>
      if c1.toNat = 61 then
        if c2.toNat = 61 then some rest.reverse else some (c2 :: rest).reverse
      else some cs
    | _ => some cs
  else if cs.any (fun c => c.toNat = 61) then none else some cs

/-- `atob`: decode a base64 string into the byte values of the binary
string JavaScript returns.  Throws (returns `error`) on characters outside
the alphabet, bad padding, or a length congruent to 1 mod 4. -/
def atob (s : String) : Except Unit (List Nat) :=
  let cs := s.data.filter (fun c => !isB64Ws c)
  match b64StripPad cs with
  | none => Except.error ()
  | some stripped =>
    if stripped.length % 4 = 1 then Except.error ()
    else
      match stripped.mapM b64Index with
      | none => Except.error ()
      | some groups =>
        match b64Groups groups with
        | none => Except.error ()
        | some bytes => Except.ok bytes

/-! ### Percent-encoding and `decodeURIComponent` -/

/-- One lowercase hex digit. -/
def hexDigitLower (n : Nat) : Char :=
  if n < 10 then Char.ofNat (48 + n) else Char.ofNat (97 + (n - 10))

/-- One uppercase hex digit. -/
def hexDigitUpper (n : Nat) : Char :=
  if n < 10 then Char.ofNat (48 + n) else Char.ofNat (65 + (n - 10))

/-- The `map`/`join` in the source turns each byte of the `atob` result into
a `%` escape with two lowercase hex digits. -/
def percentEncodeBytes (bytes : List Nat) : String :=
  String.mk (bytes.foldr (fun b acc =>
    Char.ofNat 37 :: hexDigitLower (b / 16 % 16) :: hexDigitLower (b % 16) :: acc) [])

/-- Value of a hex digit character, either case. -/
def hexVal (c : Char) : Option Nat :=
  if 48 ≤ c.toNat ∧ c.toNat ≤ 57 then some (c.toNat - 48)
  else if 97 ≤ c.toNat ∧ c.toNat ≤ 102 then some (c.toNat - 97 + 10)
  else if 65 ≤ c.toNat ∧ c.toNat ≤ 70 then some (c.toNat - 65 + 10)
  else none

/-- Strict UTF-8 decoding of a byte sequence (rejecting overlong forms,
surrogates and out-of-range code points), as `decodeURIComponent` applies
to percent-escaped bytes. -/
def utf8DecodeBytes : List Nat → Option (List Char)
  | [] => some []
  | b :: rest =>
    if b < 128 then
      (utf8DecodeBytes rest).map (fun cs => Char.ofNat b :: cs)
    else if b < 192 then none
    else if b < 224 then
      match rest with
      | c1 :: rest1 =>
        if 128 ≤ c1 ∧ c1 < 192 then
          let cp := (b - 192) * 64 + (c1 - 128)
          if 128 ≤ cp then
            (utf8DecodeBytes rest1).map (fun cs => Char.ofNat cp :: cs)
          else none
        else none
      | _ => none
    else if b < 240 then
      match rest with
      | c1 :: c2 :: rest2 =>
        if (128 ≤ c1 ∧ c1 < 192) ∧ (128 ≤ c2 ∧ c2 < 192) then
          let cp := (b - 224) * 4096 + (c1 - 128) * 64 + (c2 - 128)
          if 2048 ≤ cp ∧ ¬(55296 ≤ cp ∧ cp ≤ 57343) then
            (utf8DecodeBytes rest2).map (fun cs => Char.ofNat cp :: cs)
          else none
        else none
      | _ => none
    else if b < 248 then
      match rest with
      | c1 :: c2 :: c3 :: rest3 =>
        if (128 ≤ c1 ∧ c1 < 192) ∧ (128 ≤ c2 ∧ c2 < 192) ∧ (128 ≤ c3 ∧ c3 < 192) then
          let cp := (b - 240) * 262144 + (c1 - 128) * 4096 + (c2 - 128) * 64 + (c3 - 128)
          if 65536 ≤ cp ∧ cp ≤ 1114111 then
            (utf8DecodeBytes rest3).map (fun cs => Char.ofNat cp :: cs)
          else none
        else none
      | _ => none
    else none

/-- Split a string into literal characters and the byte values of `%XX`
escapes; a malformed escape is a URIError. -/
def pctTokens : List Char → Option (List (Sum Nat Char))
  | [] => some []
  | c :: rest =>
    if c.toNat = 37 then
      match rest with
      | h1 :: h2 :: rest2 =>
        match hexVal h1, hexVal h2 with
        | some v1, some v2 => (pctTokens rest2).map (fun ts => Sum.inl (v1 * 16 + v2) :: ts)
        | _, _ => none
      | _ => none
    else (pctTokens rest).map (fun ts => Sum.inr c :: ts)

/-- Decode a token list: maximal runs of escape bytes (accumulated in
`pending`, in reverse) are UTF-8 decoded, literal characters pass
through. -/
def decodePctTokens : List (Sum Nat Char) → List Nat → Option (List Char)
  | [], pending => utf8DecodeBytes pending.reverse
  | Sum.inl b :: rest, pending => decodePctTokens rest (b :: pending)
  | Sum.inr c :: rest, pending =>
    match utf8DecodeBytes pending.reverse with
    | none => none
    | some cs => (decodePctTokens rest []).map (fun tail => cs ++ c :: tail)

/-- `decodeURIComponent`: decode `%` escapes as UTF-8, throwing a URIError
on malformed escapes or invalid UTF-8. -/
def decodeURIComponent (s : String) : Except Unit String :=
  match pctTokens s.data with
  | none => Except.error ()
  | some ts =>
    match decodePctTokens ts [] with
    | none => Except.error ()
    | some cs => Except.ok (String.mk cs)

/-! ### `JSON.parse` -/

/-- JSON whitespace. -/
def skipWsJ : List Char → List Char
  | [] => []
  | c :: rest =>
    if c.toNat = 32 ∨ c.toNat = 9 ∨ c.toNat = 10 ∨ c.toNat = 13
    then skipWsJ rest else c :: rest

/-- Strip a literal prefix. -/
def stripLit : List Char → List Char → Option (List Char)
  | [], cs => some cs
  | l :: lit, c :: cs => if l = c then stripLit lit cs else none
  | _ :: _, [] => none

/-- Decimal digit? -/
def isDigitCh (c : Char) : Bool := 48 ≤ c.toNat ∧ c.toNat ≤ 57

/-- Parse a JSON number.  Fractional and exponent literals are out of the
scope of the claims and are modelled as parse failures; every number in the
modelled payloads is an integer literal. -/
def parseNumJ (cs : List Char) : Option (Json × List Char) :=
  let (neg, cs1) :=
    match cs with
    | c :: rest => if c.toNat = 45 then (true, rest) else (false, cs)
    | [] => (false, cs)
  let digits := cs1.takeWhile isDigitCh
  let rest := cs1.dropWhile isDigitCh
  match digits with
  | [] => none
  | d :: ds =>
    if d.toNat = 48 ∧ ds ≠ [] then none
    else
      match rest with
      | r :: _ =>
        if r.toNat = 46 ∨ r.toNat = 101 ∨ r.toNat = 69 then none
        else
          let n : Int := Int.ofNat (digits.foldl (fun acc c => acc * 10 + (c.toNat - 48)) 0)
          some (Json.num (if neg then -n else n), rest)
      | [] =>
        let n : Int := Int.ofNat (digits.foldl (fun acc c => acc * 10 + (c.toNat - 48)) 0)
        some (Json.num (if neg then -n else n), rest)

/-- Parse four hex digits of a `\u` escape. -/
def parseHex4 : List Char → Option (Nat × List Char)
  | h1 :: h2 :: h3 :: h4 :: rest =>
    match hexVal h1, hexVal h2, hexVal h3, hexVal h4 with
    | some v1, some v2, some v3, some v4 =>
      some (v1 * 4096 + v2 * 256 + v3 * 16 + v4, rest)
    | _, _, _, _ => none
  | _ => none

/-- Parse a JSON string body after the opening quote.  Surrogate `\u`
escapes are out of the scope of the claims and modelled as failures. -/
def parseStringJ : Nat → List Char → Option (String × List Char)
  | 0, _ => none
  | _, [] => none
  | fuel + 1, c :: rest =>
    if c.toNat = 34 then some ("", rest)
    else if c.toNat = 92 then
      match rest with
      | [] => none
      | e :: rest1 =>
        let esc : Option (Char × List Char) :=
          if e.toNat = 34 then some (Char.ofNat 34, rest1)
          else if e.toNat = 92 then some (Char.ofNat 92, rest1)
          else if e.toNat = 47 then some (Char.ofNat 47, rest1)
          else if e.toNat = 98 then some (Char.ofNat 8, rest1)
          else if e.toNat = 102 then some (Char.ofNat 12, rest1)
          else if e.toNat = 110 then some (Char.ofNat 10, rest1)
          else if e.toNat = 114 then some (Char.ofNat 13, rest1)
          else if e.toNat = 116 then some (Char.ofNat 9, rest1)
          else if e.toNat = 117 then
            match parseHex4 rest1 with
            | some (v, rest2) =>
              if 55296 ≤ v ∧ v ≤ 57343 then none else some (Char.ofNat v, rest2)
            | none => none
          else none
        match esc with
        | some (ch, rest2) =>
          (parseStringJ fuel rest2).map (fun p => (String.mk (ch :: p.1.data), p.2))
        | none => none
    else if c.toNat < 32 then none
    else (parseStringJ fuel rest).map (fun p => (String.mk (c :: p.1.data), p.2))

mutual
/-- Parse one JSON value (recursive descent, fuel-indexed). -/
def parseValJ : Nat → List Char → Option (Json × List Char)
  | 0, _ => none
  | fuel + 1, cs =>
    match skipWsJ cs with
    | [] => none
    | c :: rest =>
      if c.toNat = 110 then (stripLit "ull".data rest).map (fun r => (Json.null, r))
      else if c.toNat = 116 then (stripLit "rue".data rest).map (fun r => (Json.bool true, r))
      else if c.toNat = 102 then (stripLit "alse".data rest).map (fun r => (Json.bool false, r))
      else if c.toNat = 34 then (parseStringJ (rest.length + 1) rest).map (fun p => (Json.str p.1, p.2))
      else if c.toNat = 91 then parseArrJ fuel rest
      else if c.toNat = 123 then parseObjJ fuel rest
      else if c.toNat = 45 ∨ isDigitCh c then parseNumJ (c :: rest)
      else none

/-- Parse array elements after the opening bracket. -/
def parseArrJ : Nat → List Char → Option (Json × List Char)
  | 0, _ => none
  | fuel + 1, cs =>
    match skipWsJ cs with
    | c :: rest =>
      if c.toNat = 93 then some (Json.arr [], rest)
      else
        match parseValJ fuel (c :: rest) with
        | some (j, r) =>
          (parseArrRestJ fuel r).map (fun p => (Json.arr (j :: p.1), p.2))
        | none => none
    | [] => none

/-- Parse the remaining elements of an array. -/
def parseArrRestJ : Nat → List Char → Option (List Json × List Char)
  | 0, _ => none
  | fuel + 1, cs =>
    match skipWsJ cs with
    | c :: rest =>
      if c.toNat = 93 then some ([], rest)
      else if c.toNat = 44 then
        match parseValJ fuel rest with
        | some (j, r) => (parseArrRestJ fuel r).map (fun p => (j :: p.1, p.2))
        | none => none
      else none
    | [] => none

/-- Parse object members after the opening brace. -/
def parseObjJ : Nat → List Char → Option (Json × List Char)
  | 0, _ => none
  | fuel + 1, cs =>
    match skipWsJ cs with
    | c :: rest =>
      if c.toNat = 125 then some (Json.obj [], rest)
      else if c.toNat = 34 then
        match parseStringJ (rest.length + 1) rest with
        | some (k, r1) =>
          match skipWsJ r1 with
          | c2 :: r2 =>
            if c2.toNat = 58 then
              match parseValJ fuel r2 with
              | some (v, r3) =>
                (parseObjRestJ fuel r3).map (fun p => (Json.obj ((k, v) :: p.1), p.2))
              | none => none
            else none
          | [] => none
        | none => none
      else none
    | [] => none

/-- Parse the remaining members of an object. -/
def parseObjRestJ : Nat → List Char → Option (List (String × Json) × List Char)
  | 0, _ => none
  | fuel + 1, cs =>
    match skipWsJ cs with
    | c :: rest =>
      if c.toNat = 125 then some ([], rest)
      else if c.toNat = 44 then
        match skipWsJ rest with
        | c2 :: r1 =>
          if c2.toNat = 34 then
            match parseStringJ (r1.length + 1) r1 with
            | some (k, r2) =>
              match skipWsJ r2 with
              | c3 :: r3 =>
                if c3.toNat = 58 then
                  match parseValJ fuel r3 with
                  | some (v, r4) =>
                    (parseObjRestJ fuel r4).map (fun p => ((k, v) :: p.1, p.2))
                  | none => none
                else none
              | [] => none
            | none => none
          else none
        | [] => none
      else none
    | [] => none
end

/-- `JSON.parse`: parse a complete JSON document, throwing (returning
`error`) on any malformed input. -/
def jsonParse (s : String) : Except Unit Json :=
  match parseValJ (s.length * 2 + 8) s.data with
  | some (j, rest) =>
    match skipWsJ rest with
    | [] => Except.ok j
    | _ :: _ => Except.error ()
  | none => Except.error ()

/-! ### The `TokenManager` preflight script -/

/-- The two global `replace` calls turning base64url into base64: dash to
plus, underscore to slash. -/
def b64urlToB64 (s : String) : String :=
  String.mk (s.data.map (fun c =>
    if c.toNat = 45 then Char.ofNat 43
    else if c.toNat = 95 then Char.ofNat 47
    else c))

/-- `String.prototype.split` with a one-character separator: always returns
at least one (possibly empty) segment. -/
def splitOnCh (sep : Char) : List Char → List (List Char)
  | [] => [[]]
  | c :: rest =>
    if c = sep then [] :: splitOnCh sep rest
    else
      match splitOnCh sep rest with
      | seg :: segs => (c :: seg) :: segs
      | [] => [[c]]

/-- `token.split(".")`. -/
def jsSplitDot (s : String) : List String :=
  (splitOnCh (Char.ofNat 46) s.data).map String.mk

/-- The shared decoding chain of `isValidTokenHeader` and `parseJwt`: a
base64url segment through `atob`, the per-byte percent-escaping `map`/`join`,
`decodeURIComponent`, and `JSON.parse`.  Any step can throw. -/
def decodeSegment (seg : String) : Except Unit Json :=
  match atob (b64urlToB64 seg) with
  | Except.error _ => Except.error ()
  | Except.ok bytes =>
    match decodeURIComponent (percentEncodeBytes bytes) with
    | Except.error _ => Except.error ()
    | Except.ok payload => jsonParse payload

/-- `parseJwt`: `token.split(".")[1]` then the decoding chain.  A missing
payload segment leaves `base64Url` undefined, so `.replace` throws a
TypeError; a non-string token makes `.split` throw. -/
def parseJwt (token : JsVal) : Except Unit Json :=
  match token with
  | some (Json.str s) =>
    match (jsSplitDot s)[1]? with
    | none => Except.error ()
    | some seg => decodeSegment seg
  | _ => Except.error ()

/-- `isTokenExpired`: parse the JWT payload and compare its `exp` claim
against the present time (`Math.floor(Date.now() / 1000)`, passed in as
`now`).  Exceptions from `parseJwt` and from accessing `.exp` on `null`
propagate: this function has no try/catch. -/
def isTokenExpired (now : Int) (token : JsVal) : Except Unit Bool :=
  match parseJwt token with
  | Except.error e => Except.error e
  | Except.ok payload =>
    match jsAccess payload "exp" with
    | Except.error e => Except.error e
    | Except.ok expv => Except.ok (jsLtInt expv now)

/-- The body of `isValidTokenHeader`'s `try` block: split off the header
segment, decode it, and check `typ` and `alg`.  An `error` result is an
exception raised inside the `try`. -/
def isValidTokenHeaderTry (token : JsVal) : Except Unit Bool :=
  match token with
  | some (Json.str s) =>
    match decodeSegment ((jsSplitDot s).headD "") with
    | Except.error _ => Except.error ()
    | Except.ok header =>
      match jsAccess header "typ" with
      | Except.error _ => Except.error ()
      | Except.ok typ =>
        match typ with
        | some (Json.str t) =>
          if t = "JWT" then
            match jsAccess header "alg" with
            | Except.error _ => Except.error ()
            | Except.ok alg =>
              match alg with
              | some (Json.str a) =>
                if a = "HS256" ∨ a = "RS256" then Except.ok true else Except.ok false
              | _ => Except.ok false
          else Except.ok false
        | _ => Except.ok false
  | _ => Except.error ()

/-- `isValidTokenHeader`: the `try` body with its `catch (e) { return false }`.
It is total and never throws. -/
def isValidTokenHeader (token : JsVal) : Bool :=
  match isValidTokenHeaderTry token with
  | Except.ok b => b
  | Except.error _ => false

/-- Characters `encodeURIComponent` leaves unescaped. -/
def isUnreservedURI (c : Char) : Bool :=
  (48 ≤ c.toNat ∧ c.toNat ≤ 57) ∨ (65 ≤ c.toNat ∧ c.toNat ≤ 90) ∨
    (97 ≤ c.toNat ∧ c.toNat ≤ 122) ∨
    c.toNat = 45 ∨ c.toNat = 95 ∨ c.toNat = 46 ∨ c.toNat = 33 ∨
    c.toNat = 126 ∨ c.toNat = 42 ∨ c.toNat = 39 ∨ c.toNat = 40 ∨ c.toNat = 41

/-- UTF-8 encoding of one character. -/
def utf8EncodeChar (c : Char) : List Nat :=
  let n := c.toNat
  if n < 128 then [n]
  else if n < 2048 then [192 + n / 64, 128 + n % 64]
  else if n < 65536 then [224 + n / 4096, 128 + n / 64 % 64, 128 + n % 64]
  else [240 + n / 262144, 128 + n / 4096 % 64, 128 + n / 64 % 64, 128 + n % 64]

/-- `encodeURIComponent`: percent-escape everything outside the unreserved
set, using uppercase hex over the UTF-8 bytes. -/
def encodeURIComponent (s : String) : String :=
  String.mk (s.data.foldr (fun c acc =>
    if isUnreservedURI c then c :: acc
    else (utf8EncodeChar c).foldr (fun b acc2 =>
      Char.ofNat 37 :: hexDigitUpper (b / 16 % 16) :: hexDigitUpper (b % 16) :: acc2) acc) [])

/-- `constructRequestBody`: `Object.keys(data).map(key =>
key + "=" + encodeURIComponent(data[key])).join("&")`, with the object
modelled as an insertion-ordered association list. -/
def constructRequestBody (data : List (String × JsVal)) : String :=
  String.intercalate "&" (data.map (fun p => p.1 ++ "=" ++ encodeURIComponent (jsToString p.2)))

/-- The `ENDPOINTS.authorize` constant. -/
def ENDPOINTS_authorize : String :=
  "https://login.microsoftonline.com/<insert-tenant-name-here>/oauth2/v2.0/authorize"

/-- The `ENDPOINTS.token` constant. -/
def ENDPOINTS_token : String :=
  "https://login.microsoftonline.com/<insert-tenant-name-here>/oauth2/v2.0/token"

/-- The persistent Apollo environment (`explorer.environment`), a key-value
store. -/
abbrev EnvStore := List (String × JsVal)

/-- `explorer.environment.get`: an absent key reads as `undefined`. -/
def envGet (env : EnvStore) (k : String) : JsVal :=
  match env.find? (fun p => p.1 == k) with
  | some p => p.2
  | none => none

/-- The `config` object built at the top of the script: literal placeholder
strings plus the two PKCE values read from the environment. -/
structure Config where
  client_id : JsVal
  tenant_id : JsVal
  state : JsVal
  scope : JsVal
  response_type : JsVal
  code_challenge_method : JsVal
  code_challenge : JsVal
  code_verifier : JsVal
  redirect_uri : JsVal
  deriving Repr, BEq

/-- The `config` literal from the source. -/
def configOf (env : EnvStore) : Config :=
  { client_id := some (Json.str "<insert-client-id-here>")
    tenant_id := some (Json.str "<insert-tenant-id-here>")
    state := some (Json.str "<insert-unique-state-string-here>")
    scope := some (Json.str "<insert-scope-here>")
    response_type := some (Json.str "code")
    code_challenge_method := some (Json.str "S256")
    code_challenge := envGet env "code_challenge"
    code_verifier := envGet env "code_verifier"
    redirect_uri := some (Json.str "https://studio.apollographql.com/explorer-oauth2") }

/-- The mutable fields of a `TokenManager` instance. -/
structure TMState where
  token : JsVal
  refreshToken : JsVal
  deriving Repr, BEq

/-- The `TokenManager` constructor: read `token` and `refresh_token` from
the environment. -/
def mkTokenManager (env : EnvStore) : TMState :=
  { token := envGet env "token", refreshToken := envGet env "refresh_token" }

/-- Observable effects of one `getAccessToken` invocation: environment
writes, network calls, and the `console.error` log. -/
inductive Effect where
  | envSet : String → JsVal → Effect
  | fetch : String → String → Effect
  | oauth2Request : String → List (String × JsVal) → Effect
  | consoleError : Effect
  deriving Repr, BEq

/-- The external world for one invocation: the clock and the responses the
two token-endpoint fetches and the authorize request would produce
(`error` = the awaited call rejects). -/
structure World where
  now : Int
  refreshFetch : Except Unit String
  oauthResponse : Except Unit Json
  newTokensFetch : Except Unit String

/-- The value computation of `refreshAccessToken` on the awaited fetch
outcome: a rejected fetch propagates, `JSON.parse` of the body can throw,
destructuring `{ access_token, error }` of `null` throws a TypeError, a
truthy `error` field raises `new Error(...)`, and otherwise `access_token`
is returned. -/
def refreshResponseParse : Except Unit String → Except Unit JsVal
  | Except.error _ => Except.error ()
  | Except.ok respBody =>
    match jsonParse respBody with
    | Except.error _ => Except.error ()
    | Except.ok Json.null => Except.error ()
    | Except.ok j =>
      if jsTruthy (jField j "error") then Except.error ()
      else Except.ok (jField j "access_token")

/-- `refreshAccessToken`: POST the refresh grant (the fetch effect is always
emitted), then parse the response via `refreshResponseParse`. -/
def refreshAccessToken (cfg : Config) (w : World) (st : TMState) :
    Except Unit JsVal × List Effect :=
  (refreshResponseParse w.refreshFetch,
   [Effect.fetch ENDPOINTS_token (constructRequestBody
     [("client_id", cfg.client_id),
      ("grant_type", some (Json.str "refresh_token")),
      ("refresh_token", st.refreshToken)])])

/-- The authorize-request parameter object passed to
`explorer.oauth2Request`. -/
def oauthParamsOf (cfg : Config) : List (String × JsVal) :=
  [("client_id", cfg.client_id), ("state", cfg.state), ("scope", cfg.scope),
   ("response_type", cfg.response_type),
   ("code_challenge_method", cfg.code_challenge_method),
   ("code_challenge", cfg.code_challenge)]

/-- The value computation of `retrieveNewTokens` on the awaited
token-endpoint fetch outcome: a rejected fetch propagates, `JSON.parse` can
throw, destructuring `{ access_token, refresh_token }` of `null` throws a
TypeError, and otherwise both fields are returned. -/
def newTokensResponseParse : Except Unit String → Except Unit (JsVal × JsVal)
  | Except.error _ => Except.error ()
  | Except.ok respBody =>
    match jsonParse respBody with
    | Except.error _ => Except.error ()
    | Except.ok Json.null => Except.error ()
    | Except.ok j =>
      Except.ok (jField j "access_token", jField j "refresh_token")

/-- `retrieveNewTokens`: run the authorize request and destructure
`{ code }` from its result (a TypeError on `null`, and a rejection
propagates before any fetch); then POST the authorization-code grant and
parse the response via `newTokensResponseParse`. -/
def retrieveNewTokens (cfg : Config) (w : World) :
    Except Unit (JsVal × JsVal) × List Effect :=
  let effs0 := [Effect.oauth2Request ENDPOINTS_authorize (oauthParamsOf cfg)]
  match w.oauthResponse with
  | Except.error _ => (Except.error (), effs0)
  | Except.ok Json.null => (Except.error (), effs0)
  | Except.ok resp =>
    let body := constructRequestBody
      [("client_id", cfg.client_id), ("tenant_id", cfg.tenant_id),
       ("code", jField resp "code"), ("code_verifier", cfg.code_verifier),
       ("grant_type", some (Json.str "authorization_code")),
       ("redirect_uri", cfg.redirect_uri)]
    (newTokensResponseParse w.newTokensFetch,
     effs0 ++ [Effect.fetch ENDPOINTS_token body])

/-- The guard `this.token && !this.isTokenExpired() && this.isValidTokenHeader()`
with JavaScript short-circuiting: a falsy token skips both calls, and an
exception from `isTokenExpired` propagates. -/
def cachedTokenGuard (w : World) (st : TMState) : Except Unit Bool :=
  if jsTruthy st.token then
    match isTokenExpired w.now st.token with
    | Except.error e => Except.error e
    | Except.ok true => Except.ok false
    | Except.ok false => Except.ok (isValidTokenHeader st.token)
  else Except.ok false

/-- Result of one `getAccessToken` invocation: the returned value or thrown
exception, the ordered effect trace, and the final instance state. -/
structure GAOut where
  result : Except Unit JsVal
  effects : List Effect
  finalState : TMState
  deriving Repr

/-- The tail of `getAccessToken` after the comment "we have no tokens or
refresh failed": `retrieveNewTokens`, both field assignments, both
environment writes.  `pre` is the trace accumulated so far. -/
def newTokensPath (cfg : Config) (w : World) (st : TMState) (pre : List Effect) : GAOut :=
  match retrieveNewTokens cfg w with
  | (Except.error e, effs) =>
    { result := Except.error e, effects := pre ++ effs, finalState := st }
  | (Except.ok (accTok, refTok), effs) =>
    { result := Except.ok accTok
      effects := pre ++ effs ++
        [Effect.envSet "token" accTok, Effect.envSet "refresh_token" refTok]
      finalState := { token := accTok, refreshToken := refTok } }

/-- `getAccessToken`: return the cached token when the guard passes; else,
when a refresh token is present, try `refreshAccessToken` inside the
`try`/`catch` (success assigns and writes `token`; failure logs via
`console.error` and falls through); finally `retrieveNewTokens`. -/
def getAccessToken (cfg : Config) (w : World) (st : TMState) : GAOut :=
  match cachedTokenGuard w st with
  | Except.error e => { result := Except.error e, effects := [], finalState := st }
  | Except.ok true => { result := Except.ok st.token, effects := [], finalState := st }
  | Except.ok false =>
    if jsTruthy st.refreshToken then
      match refreshAccessToken cfg w st with
      | (Except.ok tok, effs) =>
        { result := Except.ok tok
          effects := effs ++ [Effect.envSet "token" tok]
          finalState := { st with token := tok } }
      | (Except.error _, effs) =>
        newTokensPath cfg w st (effs ++ [Effect.consoleError])
    else newTokensPath cfg w st []

/-! ### `useSaveScrollPosition` -/

/-- Browser localStorage: an ordered key-value store of strings. -/
abbrev LocalStorage := List (String × String)

/-- `localStorage.getItem`: `none` is the `null` an absent key returns. -/
def getItem : LocalStorage → String → Option String
  | [], _ => none
  | (a, b) :: rest, k => if a = k then some b else getItem rest k

/-- `localStorage.setItem`: overwrite an existing key in place or append. -/
def setItem : LocalStorage → String → String → LocalStorage
  | [], k, v => [(k, v)]
  | (a, b) :: rest, k, v =>
    if a = k then (k, v) :: rest else (a, b) :: setItem rest k v

/-- The `saveScrollPosition` closure: store `window.scrollY` (modelled as an
integer pixel offset, coerced to a string by `setItem`) under
`scrollPosition`. -/
def saveScrollPosition (store : LocalStorage) (scrollY : Int) : LocalStorage :=
  setItem store "scrollPosition" (toString scrollY)

/-- Arguments of a `window.scrollTo` call; `top` is the JavaScript number
passed (`none` = NaN). -/
structure ScrollToCall where
  top : Option Int
  behavior : String
  deriving Repr, BEq

/-- `Number(s)` on a string. -/
def jsNumberOfString (s : String) : Option Int :=
  jsToNumber (some (Json.str s))

/-- The mount-time restore: read `scrollPosition`; when the value is truthy
(present and non-empty), call `window.scrollTo` with `Number(value)` and
smooth behavior. -/
def mountScrollRestore (store : LocalStorage) : Option ScrollToCall :=
  match getItem store "scrollPosition" with
  | none => none
  | some s =>
    if s ≠ "" then some { top := jsNumberOfString s, behavior := "smooth" }
    else none

/-- Observable effects of the hook. -/
inductive HookEffect where
  | storageRead : String → HookEffect
  | storageWrite : String → String → HookEffect
  | scrollTo : ScrollToCall → HookEffect
  | addScrollListener : HookEffect
  | removeScrollListener : HookEffect
  deriving Repr, BEq

/-- The `useEffect` body on mount: one storage read, the conditional
`scrollTo`, then `document.addEventListener("scroll", saveScrollPosition)`. -/
def useSaveScrollPositionMount (store : LocalStorage) : List HookEffect :=
  HookEffect.storageRead "scrollPosition" ::
    ((match mountScrollRestore store with
      | some call => [HookEffect.scrollTo call]
      | none => []) ++ [HookEffect.addScrollListener])

/-- One scroll event while mounted: `saveScrollPosition` runs, producing
exactly one storage write. -/
def onScrollEvent (store : LocalStorage) (scrollY : Int) : LocalStorage × List HookEffect :=
  (saveScrollPosition store scrollY,
   [HookEffect.storageWrite "scrollPosition" (toString scrollY)])

/-- The `useEffect` cleanup on unmount:
`document.removeEventListener("scroll", saveScrollPosition)`. -/
def useSaveScrollPositionUnmount : List HookEffect :=
  [HookEffect.removeScrollListener]

/-- The store after a sequence of scroll events. -/
def applyScrollEvents (store : LocalStorage) (ys : List Int) : LocalStorage :=
  ys.foldl saveScrollPosition store

/-! ### The `Comments` component -/

/-- A script element as configured by the component. -/
structure ScriptTag where
  attrs : List (String × String)
  async : Bool
  deriving Repr, BEq

/-- The utteranc.es script tag built on mount, attributes in `setAttribute`
order. -/
def commentsScriptTag : ScriptTag :=
  { attrs :=
      [("src", "https://utteranc.es/client.js"),
       ("repo", "mxmnci/portfolio-website"),
       ("issue-term", "pathname"),
       ("theme", "preferred-color-scheme"),
       ("crossorigin", "anonymous")]
    async := true }

/-- The observable outcome of the `Comments` effect on mount. -/
structure CommentsMountOut where
  containerId : String
  containerHTML : String
  injected : ScriptTag
  deriving Repr, BEq

/-- The `Comments` `useEffect` body: a fresh container div whose id embeds
`Date.now()` (passed in as `nowMs`), and the configured script appended to
it. -/
def commentsMount (nowMs : Nat) : CommentsMountOut :=
  let commentNodeId := "comments_" ++ toString nowMs
  { containerId := commentNodeId
    containerHTML := "<div id=\"" ++ commentNodeId ++ "\" />"
    injected := commentsScriptTag }

/-! ### Helper discriminators and lemmas -/

/-- Is an effect an environment write? -/
def isEnvSet : Effect → Bool
  | Effect.envSet _ _ => true
  | _ => false

/-- Is a hook effect a storage read? -/
def isStorageRead : HookEffect → Bool
  | HookEffect.storageRead _ => true
  | _ => false

/-- Is a hook effect a storage write? -/
def isStorageWrite : HookEffect → Bool
  | HookEffect.storageWrite _ _ => true
  | _ => false

theorem getItem_setItem_self (store : LocalStorage) (k v : String) :
    getItem (setItem store k v) k = some v := by
  induction store with
  | nil => simp [setItem, getItem]
  | cons p rest ih =>
    obtain ⟨a, b⟩ := p
    by_cases h : a = k <;> simp [setItem, getItem, h, ih]

theorem getItem_setItem_ne (store : LocalStorage) (k v k₂ : String) (h : k₂ ≠ k) :
    getItem (setItem store k v) k₂ = getItem store k₂ := by
  induction store with
  | nil => simp [setItem, getItem, Ne.symm h]
  | cons p rest ih =>
    obtain ⟨a, b⟩ := p
    by_cases ha : a = k
    · subst ha
      simp [setItem, getItem, Ne.symm h]
    · simp [setItem, getItem, ha, ih]

/-! ### Claims about `useSaveScrollPosition` -/

/-- C2 counterexample: a stored `scrollPosition` value can exist (the empty
string) while the hook does not scroll at all on mount, because the code
guards on JavaScript truthiness, not existence; the claim predicts a
`scrollTo` with `Number("") = 0` here. -/
theorem mountScrollRestore_empty_string_counterexample :
    getItem [("scrollPosition", "")] "scrollPosition" = some "" ∧
    mountScrollRestore [("scrollPosition", "")] = none :=
  ⟨rfl, rfl⟩

/-- C2 (amended): on mount the hook reads the stored offset and, whenever a
saved value exists and is non-empty (truthy), scrolls the window to exactly
`Number` of the stored string, with smooth behavior. -/
theorem mountScrollRestore_restores_nonempty (store : LocalStorage) (s : String)
    (h : getItem store "scrollPosition" = some s) (hne : s ≠ "") :
    mountScrollRestore store = some { top := jsNumberOfString s, behavior := "smooth" } := by
  simp [mountScrollRestore, h, hne]

/-- C2 witness: a store holding "42" is restored to offset 42. -/
theorem mountScrollRestore_restores_nonempty_witness :
    mountScrollRestore [("scrollPosition", "42")] =
      some { top := some 42, behavior := "smooth" } := by
  have h := mountScrollRestore_restores_nonempty [("scrollPosition", "42")] "42" rfl
    (by decide)
  simpa using h

/-- C3: after any non-empty sequence of scroll-event writes the stored
`scrollPosition` equals the stringified value written last, and no key other
than `scrollPosition` is modified by the repository's storage writer. -/
theorem localStorage_single_key (store : LocalStorage) (ys : List Int) (z : Int)
    (h : ys.getLast? = some z) :
    getItem (applyScrollEvents store ys) "scrollPosition" = some (toString z) ∧
    ∀ k, k ≠ "scrollPosition" → getItem (applyScrollEvents store ys) k = getItem store k := by
  induction ys generalizing store with
  | nil => simp at h
  | cons y rest ih =>
    cases rest with
    | nil =>
      have hz : y = z := by
        have hy : ([y] : List Int).getLast? = some y := rfl
        rw [hy] at h
        exact Option.some.inj h
      subst hz
      refine ⟨?_, ?_⟩
      · simpa [applyScrollEvents, saveScrollPosition] using
          getItem_setItem_self store "scrollPosition" (toString y)
      · intro k hk
        simpa [applyScrollEvents, saveScrollPosition] using
          getItem_setItem_ne store "scrollPosition" (toString y) k hk
    | cons y2 rest2 =>
      rw [List.getLast?_cons_cons] at h
      have step : applyScrollEvents store (y :: y2 :: rest2) =
          applyScrollEvents (saveScrollPosition store y) (y2 :: rest2) := rfl
      obtain ⟨h1, h2⟩ := ih (saveScrollPosition store y) h
      refine ⟨step ▸ h1, ?_⟩
      intro k hk
      rw [step, h2 k hk]
      simpa [saveScrollPosition] using
        getItem_setItem_ne store "scrollPosition" (toString y) k hk

/-- C3 witness: writing 3 then 5 leaves "5" stored, and an unrelated key is
untouched. -/
theorem localStorage_single_key_witness :
    getItem (applyScrollEvents [("x", "y")] [(3 : Int), 5]) "scrollPosition" = some "5" ∧
    getItem (applyScrollEvents [("x", "y")] [(3 : Int), 5]) "x" = some "y" := by
  have h := localStorage_single_key [("x", "y")] [(3 : Int), 5] 5 rfl
  refine ⟨h.1, ?_⟩
  rw [h.2 "x" (by decide)]
  rfl

/-- C6: on mount the hook reads browser storage exactly once (and writes
nothing); each scroll event while mounted performs exactly one write,
storing the current scroll offset under `scrollPosition`; the cleanup on
unmount removes the scroll listener. -/
theorem useSaveScrollPosition_lifecycle (store : LocalStorage) (y : Int) :
    ((useSaveScrollPositionMount store).filter isStorageRead).length = 1 ∧
    ((useSaveScrollPositionMount store).filter isStorageWrite).length = 0 ∧
    (onScrollEvent store y).2 = [HookEffect.storageWrite "scrollPosition" (toString y)] ∧
    (onScrollEvent store y).1 = setItem store "scrollPosition" (toString y) ∧
    useSaveScrollPositionUnmount = [HookEffect.removeScrollListener] := by
  cases hm : mountScrollRestore store <;>
    simp [useSaveScrollPositionMount, hm, isStorageRead, isStorageWrite, onScrollEvent,
      saveScrollPosition, useSaveScrollPositionUnmount]

/-! ### Claim about `Comments` -/

/-- C7: on mount the comment widget builds a fresh container div whose id
embeds the mount time, and injects the utteranc.es script with the
documented src, repo, issue-term, theme and crossorigin attributes, loaded
asynchronously. -/
theorem commentsMount_spec (nowMs : Nat) :
    (commentsMount nowMs).injected.attrs =
      [("src", "https://utteranc.es/client.js"),
       ("repo", "mxmnci/portfolio-website"),
       ("issue-term", "pathname"),
       ("theme", "preferred-color-scheme"),
       ("crossorigin", "anonymous")] ∧
    (commentsMount nowMs).injected.async = true ∧
    (commentsMount nowMs).containerId = "comments_" ++ toString nowMs ∧
    (commentsMount nowMs).containerHTML =
      "<div id=\"" ++ ("comments_" ++ toString nowMs) ++ "\" />" :=
  ⟨rfl, rfl, rfl, rfl⟩

/-! ### Concrete fixtures for witnesses and counterexamples -/

/-- A token with a valid header (`typ` JWT, `alg` HS256) and payload
`exp = 9`. -/
def tokGood : String := "eyJ0eXAiOiJKV1QiLCJhbGciOiJIUzI1NiJ9.eyJleHAiOjl9"

/-- A token whose payload decodes (`exp = 9`) but whose one-character header
segment makes `atob` throw inside `isValidTokenHeader`. -/
def tokBadHeader : String := "X.eyJleHAiOjl9"

/-- The script configuration over an empty environment. -/
def emptyConfig : Config := configOf []

/-- A world in which every network interaction rejects. -/
def wInert : World :=
  { now := 0, refreshFetch := Except.error (), oauthResponse := Except.error (),
    newTokensFetch := Except.error () }

/-- A world in which the refresh grant answers with a truthy `error` field
and the full authorization-code flow succeeds. -/
def wRefreshFail : World :=
  { now := 0
    refreshFetch := Except.ok "\x7b\"error\":\"expired\"\x7d"
    oauthResponse := Except.ok (Json.obj [("code", Json.str "c")])
    newTokensFetch := Except.ok "\x7b\"access_token\":\"A\",\"refresh_token\":\"R\"\x7d" }

/-! ### Claims about `TokenManager` -/

/-- C8: when the stored access token is truthy, unexpired and has a valid
JWT header, `getAccessToken` returns the cached token with no network
requests, no environment writes (an empty effect trace) and an unchanged
state. -/
theorem getAccessToken_cached_no_effects (cfg : Config) (w : World) (st : TMState)
    (hT : jsTruthy st.token = true)
    (hE : isTokenExpired w.now st.token = Except.ok false)
    (hV : isValidTokenHeader st.token = true) :
    getAccessToken cfg w st =
      { result := Except.ok st.token, effects := [], finalState := st } := by
  have hg : cachedTokenGuard w st = Except.ok true := by
    simp [cachedTokenGuard, hT, hE, hV]
  simp [getAccessToken, hg]

/-- C8 witness: a concrete valid cached token is returned unchanged with an
empty trace. -/
theorem getAccessToken_cached_no_effects_witness :
    getAccessToken emptyConfig wInert
        { token := some (Json.str tokGood), refreshToken := none } =
      { result := Except.ok (some (Json.str tokGood)), effects := []
        finalState := { token := some (Json.str tokGood), refreshToken := none } } :=
  getAccessToken_cached_no_effects emptyConfig wInert
    { token := some (Json.str tokGood), refreshToken := none } rfl rfl rfl

/-- C9: for every token string, `isValidTokenHeader` is total (it returns a
boolean and swallows every decode exception), and it returns true exactly
when the first dot-separated segment decodes to a JSON object whose `typ`
is "JWT" and whose `alg` is "HS256" or "RS256"; by contrast `isTokenExpired`
(called first in `getAccessToken`'s guard) has no such protection and throws
on a token with no payload segment, such as "abc". -/
theorem isValidTokenHeader_total_spec (s : String) (n : Int) :
    (isValidTokenHeader (some (Json.str s)) = true ↔
      ∃ h, decodeSegment ((jsSplitDot s).headD "") = Except.ok h ∧
        jField h "typ" = some (Json.str "JWT") ∧
        (jField h "alg" = some (Json.str "HS256") ∨
          jField h "alg" = some (Json.str "RS256"))) ∧
    isTokenExpired n (some (Json.str "abc")) = Except.error () := by
  refine ⟨?_, rfl⟩
  have key : isValidTokenHeader (some (Json.str s)) = true ↔
      isValidTokenHeaderTry (some (Json.str s)) = Except.ok true := by
    unfold isValidTokenHeader
    cases htr : isValidTokenHeaderTry (some (Json.str s)) with
    | error e => simp
    | ok b => cases b <;> simp
  rw [key]
  simp only [isValidTokenHeaderTry]
  cases hd : decodeSegment ((jsSplitDot s).headD "") with
  | error e => simp
  | ok h =>
    cases h with
    | null => simp [jsAccess, jField]
    | bool b => simp [jsAccess, jField]
    | num m => simp [jsAccess, jField]
    | str t => simp [jsAccess, jField]
    | arr xs => simp [jsAccess, jField]
    | obj kvs =>
      simp only [jsAccess]
      cases ht : jField (Json.obj kvs) "typ" with
      | none => simp [ht]
      | some tj =>
        cases tj with
        | str t =>
          by_cases hJ : t = "JWT"
          · subst hJ
            cases ha : jField (Json.obj kvs) "alg" with
            | none => simp [ht, ha]
            | some aj =>
              cases aj with
              | str a =>
                by_cases hA : a = "HS256" ∨ a = "RS256" <;> simp [ht, ha, hA]
              | null => simp [ht, ha]
              | bool b => simp [ht, ha]
              | num m => simp [ht, ha]
              | arr xs => simp [ht, ha]
              | obj kvs2 => simp [ht, ha]
          · simp [ht, hJ]
        | null => simp [ht]
        | bool b => simp [ht]
        | num m => simp [ht]
        | arr xs => simp [ht]
        | obj kvs2 => simp [ht]

theorem refreshAccessToken_effects_eq (cfg : Config) (w : World) (st : TMState) :
    (refreshAccessToken cfg w st).2 =
      [Effect.fetch ENDPOINTS_token (constructRequestBody
        [("client_id", cfg.client_id),
         ("grant_type", some (Json.str "refresh_token")),
         ("refresh_token", st.refreshToken)])] := rfl

theorem retrieveNewTokens_envSet_free (cfg : Config) (w : World) :
    ∀ e ∈ (retrieveNewTokens cfg w).2, isEnvSet e = false := by
  intro e he
  unfold retrieveNewTokens at he
  cases ho : w.oauthResponse with
  | error u => rw [ho] at he; simp at he; subst he; rfl
  | ok resp =>
    rw [ho] at he
    cases resp <;> simp at he <;>
      first
        | (subst he; rfl)
        | (rcases he with he | he <;> subst he <;> rfl)

/-- C4: a single `getAccessToken` invocation performs at most two
environment writes, and every environment write it performs targets the
`token` or `refresh_token` key; no other key is ever written on any path. -/
theorem getAccessToken_env_write_frame (cfg : Config) (w : World) (st : TMState) :
    (((getAccessToken cfg w st).effects.filter isEnvSet).length ≤ 2) ∧
    (∀ k v, Effect.envSet k v ∈ (getAccessToken cfg w st).effects →
      k = "token" ∨ k = "refresh_token") := by
  have hn2 : ∀ e ∈ (retrieveNewTokens cfg w).2, isEnvSet e = false :=
    retrieveNewTokens_envSet_free cfg w
  have hfil2 : (retrieveNewTokens cfg w).2.filter isEnvSet = [] :=
    List.filter_eq_nil_iff.mpr (fun a ha => by simp [hn2 a ha])
  have main : ∀ pre : List Effect,
      pre.filter isEnvSet = [] →
      (∀ k v, Effect.envSet k v ∈ pre → False) →
      (((newTokensPath cfg w st pre).effects.filter isEnvSet).length ≤ 2) ∧
      (∀ k v, Effect.envSet k v ∈ (newTokensPath cfg w st pre).effects →
        k = "token" ∨ k = "refresh_token") := by
    intro pre hpre hmem
    unfold newTokensPath
    cases hq : retrieveNewTokens cfg w with
    | mk res2 effs2 =>
      rw [hq] at hfil2 hn2
      simp only at hfil2 hn2
      cases res2 with
      | error u =>
        constructor
        · simp [List.filter_append, hpre, hfil2]
        · intro k v hm
          simp only [List.mem_append] at hm
          rcases hm with hm | hm
          · exact (hmem k v hm).elim
          · have := hn2 _ hm
            simp [isEnvSet] at this
      | ok pair =>
        obtain ⟨accTok, refTok⟩ := pair
        constructor
        · simp [List.filter_append, hpre, hfil2, isEnvSet]
        · intro k v hm
          simp only [List.append_assoc, List.mem_append, List.mem_cons,
            List.not_mem_nil, or_false] at hm
          rcases hm with hm | hm | hm | hm
          · exact (hmem k v hm).elim
          · have := hn2 _ hm
            simp [isEnvSet] at this
          · exact Or.inl (by injection hm)
          · exact Or.inr (by injection hm)
  unfold getAccessToken
  cases hg : cachedTokenGuard w st with
  | error e => simp
  | ok b =>
    cases b with
    | true => simp
    | false =>
      by_cases hrt : jsTruthy st.refreshToken
      · simp only [hrt, if_true]
        cases hp : refreshAccessToken cfg w st with
        | mk res effs =>
          have heffs : effs =
              [Effect.fetch ENDPOINTS_token (constructRequestBody
                [("client_id", cfg.client_id),
                 ("grant_type", some (Json.str "refresh_token")),
                 ("refresh_token", st.refreshToken)])] := by
            rw [← refreshAccessToken_effects_eq cfg w st, hp]
          cases res with
          | ok tok =>
            subst heffs
            constructor
            · simp [isEnvSet]
            · intro k v hm
              simp at hm
              exact Or.inl hm.1
          | error u =>
            subst heffs
            apply main
            · simp [isEnvSet]
            · intro k v hm
              simp [isEnvSet] at hm
      · simp only [hrt, if_false]
        apply main
        · rfl
        · intro k v hm
          simp at hm

/-- C1: when the cached-token guard fails, a refresh token is present, the
refresh network call throws and the fresh-credentials flow succeeds,
`getAccessToken` catches the refresh error, logs it via `console.error`,
falls back to `retrieveNewTokens`, and still returns an access token; the
full trace is the refresh fetch, the log, the fallback requests and the two
environment writes. -/
theorem getAccessToken_refresh_failure_fallback (cfg : Config) (w : World) (st : TMState)
    (accTok refTok : JsVal)
    (hg : cachedTokenGuard w st = Except.ok false)
    (hrt : jsTruthy st.refreshToken = true)
    (hre : (refreshAccessToken cfg w st).1 = Except.error ())
    (hnew : (retrieveNewTokens cfg w).1 = Except.ok (accTok, refTok)) :
    (getAccessToken cfg w st).result = Except.ok accTok ∧
    Effect.consoleError ∈ (getAccessToken cfg w st).effects ∧
    (getAccessToken cfg w st).effects =
      (refreshAccessToken cfg w st).2 ++ [Effect.consoleError] ++
        (retrieveNewTokens cfg w).2 ++
        [Effect.envSet "token" accTok, Effect.envSet "refresh_token" refTok] := by
  unfold getAccessToken
  cases hp : refreshAccessToken cfg w st with
  | mk res effs =>
    rw [hp] at hre
    simp only at hre
    subst hre
    unfold newTokensPath
    cases hq : retrieveNewTokens cfg w with
    | mk res2 effs2 =>
      rw [hq] at hnew
      simp only at hnew
      subst hnew
      simp [hg, hrt, List.append_assoc]

/-- C5 counterexample: a token whose header segment is undecodable (while
its payload parses and is unexpired) raises an exception inside
`isValidTokenHeader`'s `try` block during `getAccessToken`'s guard — an
error outside the refresh try/catch — yet the invocation does not propagate
it: it falls through and returns the fresh access token. -/
theorem tokenHelper_second_catch_counterexample :
    isValidTokenHeaderTry (some (Json.str tokBadHeader)) = Except.error () ∧
    jsTruthy (some (Json.str tokBadHeader)) = true ∧
    isTokenExpired 0 (some (Json.str tokBadHeader)) = Except.ok false ∧
    (getAccessToken emptyConfig wRefreshFail
        { token := some (Json.str tokBadHeader), refreshToken := none }).result =
      Except.ok (some (Json.str "A")) :=
  ⟨rfl, rfl, rfl, rfl⟩

/-- C5 (amended): the helper has exactly two failure-recovery sites, the
`try`/`catch` around `refreshAccessToken` in `getAccessToken` and the
`try`/`catch` inside `isValidTokenHeader` (whose caught decode errors
become `false`); every other error propagates: a guard (`isTokenExpired`)
exception propagates, every thrown error of an invocation originates in the
guard or in `retrieveNewTokens` (never in the caught refresh call), and a
`retrieveNewTokens` error reached on either fallback path propagates. -/
theorem tokenHelper_error_propagation (cfg : Config) (w : World) (st : TMState) :
    (∀ e, cachedTokenGuard w st = Except.error e →
      (getAccessToken cfg w st).result = Except.error e) ∧
    (∀ e, (getAccessToken cfg w st).result = Except.error e →
      cachedTokenGuard w st = Except.error e ∨
        (retrieveNewTokens cfg w).1 = Except.error e) ∧
    (∀ e, cachedTokenGuard w st = Except.ok false →
      (retrieveNewTokens cfg w).1 = Except.error e →
      (jsTruthy st.refreshToken = false ∨
        (refreshAccessToken cfg w st).1 = Except.error ()) →
      (getAccessToken cfg w st).result = Except.error e) ∧
    (∀ t, isValidTokenHeaderTry t = Except.error () → isValidTokenHeader t = false) := by
  refine ⟨?_, ?_, ?_, ?_⟩
  · intro e he
    simp [getAccessToken, he]
  · intro e he
    unfold getAccessToken at he
    cases hg : cachedTokenGuard w st with
    | error u =>
      exact Or.inl (by simp)
    | ok b =>
      rw [hg] at he
      cases b with
      | true => simp at he
      | false =>
        simp only at he
        by_cases hrt : jsTruthy st.refreshToken
        · rw [if_pos hrt] at he
          cases hp : refreshAccessToken cfg w st with
          | mk res effs =>
            rw [hp] at he
            cases res with
            | ok tok => simp at he
            | error u =>
              unfold newTokensPath at he
              cases hq : retrieveNewTokens cfg w with
              | mk res2 effs2 =>
                rw [hq] at he
                cases res2 with
                | error u2 => exact Or.inr (by simp)
                | ok pair => obtain ⟨a1, r1⟩ := pair; simp at he
        · rw [if_neg hrt] at he
          unfold newTokensPath at he
          cases hq : retrieveNewTokens cfg w with
          | mk res2 effs2 =>
            rw [hq] at he
            cases res2 with
            | error u2 => exact Or.inr (by simp)
            | ok pair => obtain ⟨a1, r1⟩ := pair; simp at he
  · intro e hg hre hor
    unfold getAccessToken
    rw [hg]
    simp only
    have hpath : ∀ pre, (newTokensPath cfg w st pre).result = Except.error e := by
      intro pre
      unfold newTokensPath
      cases hq : retrieveNewTokens cfg w with
      | mk res2 effs2 =>
        rw [hq] at hre
        simp only at hre
        subst hre
        simp
    by_cases hrt : jsTruthy st.refreshToken
    · rw [if_pos hrt]
      rcases hor with hor | hor
      · rw [hor] at hrt
        simp at hrt
      · cases hp : refreshAccessToken cfg w st with
        | mk res effs =>
          rw [hp] at hor
          simp only at hor
          subst hor
          exact hpath _
    · rw [if_neg hrt]
      exact hpath _
  · intro t ht
    simp [isValidTokenHeader, ht]

/-- C5 witness: a guard exception (token "abc" has no payload segment, so
`isTokenExpired` throws) propagates out of `getAccessToken`. -/
theorem tokenHelper_error_propagation_witness :
    (getAccessToken emptyConfig wInert
      { token := some (Json.str "abc"), refreshToken := none }).result =
      Except.error () :=
  (tokenHelper_error_propagation emptyConfig wInert
    { token := some (Json.str "abc"), refreshToken := none }).1 () rfl

/-- A world whose refresh-grant response body is the JSON document `null`. -/
def wNullRefresh : World :=
  { now := 0, refreshFetch := Except.ok "null", oauthResponse := Except.error (),
    newTokensFetch := Except.error () }

/-- C10 counterexample: a response body of `null` parses as JSON with no
truthy `error` field, yet `refreshAccessToken` still throws (destructuring
`null` is a TypeError), so "throws iff the parsed body has a truthy error
field" fails in the only-if direction. -/
theorem refreshAccessToken_null_body_counterexample :
    jsonParse "null" = Except.ok Json.null ∧
    jsTruthy (jField Json.null "error") = false ∧
    (refreshAccessToken emptyConfig wNullRefresh
      { token := none, refreshToken := some (Json.str "R0") }).1 = Except.error () :=
  ⟨rfl, rfl, rfl⟩

/-- C10 (amended): `refreshAccessToken` throws exactly when the awaited
fetch rejects, or the response body fails to parse as JSON, or it parses to
JSON `null`, or it parses to a value whose `error` field is truthy; in
every other case it returns the `access_token` field of the parsed
response. -/
theorem refreshAccessToken_error_iff (cfg : Config) (w : World) (st : TMState) :
    ((refreshAccessToken cfg w st).1 = Except.error () ↔
      (w.refreshFetch = Except.error () ∨
       ∃ b, w.refreshFetch = Except.ok b ∧
         (jsonParse b = Except.error () ∨ jsonParse b = Except.ok Json.null ∨
          ∃ j, jsonParse b = Except.ok j ∧ jsTruthy (jField j "error") = true))) ∧
    (∀ b j, w.refreshFetch = Except.ok b → jsonParse b = Except.ok j →
      j ≠ Json.null → jsTruthy (jField j "error") = false →
      (refreshAccessToken cfg w st).1 = Except.ok (jField j "access_token")) := by
  have h1 : (refreshAccessToken cfg w st).1 = refreshResponseParse w.refreshFetch := rfl
  constructor
  · rw [h1]
    cases hf : w.refreshFetch with
    | error u => simp [refreshResponseParse]
    | ok b =>
      simp only [refreshResponseParse]
      cases hj : jsonParse b with
      | error u => simp [hj]
      | ok j =>
        cases j with
        | null => simp [hj]
        | bool v => by_cases he : jsTruthy (jField (Json.bool v) "error") <;> simp [hj, he]
        | num v => by_cases he : jsTruthy (jField (Json.num v) "error") <;> simp [hj, he]
        | str v => by_cases he : jsTruthy (jField (Json.str v) "error") <;> simp [hj, he]
        | arr v => by_cases he : jsTruthy (jField (Json.arr v) "error") <;> simp [hj, he]
        | obj v => by_cases he : jsTruthy (jField (Json.obj v) "error") <;> simp [hj, he]
  · intro b j hf hj hne htr
    rw [h1, hf]
    simp only [refreshResponseParse]
    rw [hj]
    cases j with
    | null => exact absurd rfl hne
    | bool v => simp [htr]
    | num v => simp [htr]
    | str v => simp [htr]
    | arr v => simp [htr]
    | obj v => simp [htr]

/-- A world whose refresh-grant response body carries an access token and no
error field. -/
def wGoodRefresh : World :=
  { now := 0, refreshFetch := Except.ok "\x7b\"access_token\":\"A\"\x7d",
    oauthResponse := Except.error (), newTokensFetch := Except.error () }

/-- C10 witness: on a well-formed response, `refreshAccessToken` returns the
access_token field. -/
theorem refreshAccessToken_error_iff_witness :
    (refreshAccessToken emptyConfig wGoodRefresh
      { token := none, refreshToken := some (Json.str "R0") }).1 =
      Except.ok (some (Json.str "A")) := by
  have h := (refreshAccessToken_error_iff emptyConfig wGoodRefresh
      { token := none, refreshToken := some (Json.str "R0") }).2
    "\x7b\"access_token\":\"A\"\x7d" (Json.obj [("access_token", Json.str "A")])
    rfl rfl (fun hh => Json.noConfusion hh) rfl
  exact h

/-- C1 witness: with no cached token, a refresh token present, a refresh
response carrying a truthy error and a successful fallback flow, the
invocation logs and still returns the fresh access token. -/
theorem getAccessToken_refresh_failure_fallback_witness :
    (getAccessToken emptyConfig wRefreshFail
      { token := none, refreshToken := some (Json.str "R0") }).result =
      Except.ok (some (Json.str "A")) ∧
    Effect.consoleError ∈ (getAccessToken emptyConfig wRefreshFail
      { token := none, refreshToken := some (Json.str "R0") }).effects := by
  have h := getAccessToken_refresh_failure_fallback emptyConfig wRefreshFail
    { token := none, refreshToken := some (Json.str "R0") }
    (some (Json.str "A")) (some (Json.str "R")) rfl rfl rfl rfl
  exact ⟨h.1, h.2.1⟩
